import Mathlib

/-!
# Task manager dashboard

A shallow embedding of `src/components/Dashboard.jsx`: the six `useState` cells of the
`Dashboard` component, its three effects (task fetch, authentication check, search), its
event handlers (`addTask`, `deleteTask`, `handleUpdateTask`, `handleLogout`) and the branch
structure of the rendered tree.

Conventions of the embedding.

* An `await`ed call to the Firestore / Auth SDK is not part of the repository; its outcome
  (`Except JSError result`) is an argument of the handler that awaits it.
* A handler returns the component after its `set...` calls together with the completion of
  the `async` function (`.ok ()` for a fulfilled promise, `.error e` for a rejected one).
* `String.prototype.toLowerCase` is a runtime primitive defined by the Unicode tables; it is
  an argument `toLowerCase : String → String` of everything that calls it.
* JavaScript strings are embedded as Lean strings, numbers as integers.
* A handler is applied to the state current when its backend call completes: handlers do
  not overlap, so the `tasks` captured by the closure is the current list.
-/

namespace TaskManager

/-! ## JavaScript values and objects -/

/-- Values a task field can hold. -/
inductive JSVal where
  | undefined
  | null
  | bool (b : Bool)
  | num (n : Int)
  | str (s : String)
  | arr (items : List JSVal)
  | map (entries : List (String × JSVal))

mutual
/-- Decision procedure for equality of values. -/
def JSVal.decEq : (a b : JSVal) → Decidable (a = b)
  | .undefined, .undefined => isTrue rfl
  | .null, .null => isTrue rfl
  | .bool a, .bool b =>
    if h : a = b then isTrue (by rw [h]) else isFalse (by intro e; cases e; exact h rfl)
  | .num a, .num b =>
    if h : a = b then isTrue (by rw [h]) else isFalse (by intro e; cases e; exact h rfl)
  | .str a, .str b =>
    if h : a = b then isTrue (by rw [h]) else isFalse (by intro e; cases e; exact h rfl)
  | .arr a, .arr b =>
    match JSVal.decEqList a b with
    | isTrue h => isTrue (by rw [h])
    | isFalse h => isFalse (by intro e; cases e; exact h rfl)
  | .map a, .map b =>
    match JSVal.decEqEntries a b with
    | isTrue h => isTrue (by rw [h])
    | isFalse h => isFalse (by intro e; cases e; exact h rfl)
  | .undefined, .null | .undefined, .bool _ | .undefined, .num _ | .undefined, .str _
  | .undefined, .arr _ | .undefined, .map _ => isFalse (by intro e; cases e)
  | .null, .undefined | .null, .bool _ | .null, .num _ | .null, .str _
  | .null, .arr _ | .null, .map _ => isFalse (by intro e; cases e)
  | .bool _, .undefined | .bool _, .null | .bool _, .num _ | .bool _, .str _
  | .bool _, .arr _ | .bool _, .map _ => isFalse (by intro e; cases e)
  | .num _, .undefined | .num _, .null | .num _, .bool _ | .num _, .str _
  | .num _, .arr _ | .num _, .map _ => isFalse (by intro e; cases e)
  | .str _, .undefined | .str _, .null | .str _, .bool _ | .str _, .num _
  | .str _, .arr _ | .str _, .map _ => isFalse (by intro e; cases e)
  | .arr _, .undefined | .arr _, .null | .arr _, .bool _ | .arr _, .num _
  | .arr _, .str _ | .arr _, .map _ => isFalse (by intro e; cases e)
  | .map _, .undefined | .map _, .null | .map _, .bool _ | .map _, .num _
  | .map _, .str _ | .map _, .arr _ => isFalse (by intro e; cases e)
/-- Decision procedure for equality of arrays of values. -/
def JSVal.decEqList : (a b : List JSVal) → Decidable (a = b)
  | [], [] => isTrue rfl
  | [], _ :: _ => isFalse (by intro e; cases e)
  | _ :: _, [] => isFalse (by intro e; cases e)
  | x :: xs, y :: ys =>
    match JSVal.decEq x y, JSVal.decEqList xs ys with
    | isTrue h, isTrue h2 => isTrue (by rw [h, h2])
    | isFalse h, _ => isFalse (by intro e; cases e; exact h rfl)
    | _, isFalse h => isFalse (by intro e; cases e; exact h rfl)
/-- Decision procedure for equality of nested field maps. -/
def JSVal.decEqEntries : (a b : List (String × JSVal)) → Decidable (a = b)
  | [], [] => isTrue rfl
  | [], _ :: _ => isFalse (by intro e; cases e)
  | _ :: _, [] => isFalse (by intro e; cases e)
  | (k, x) :: xs, (l, y) :: ys =>
    if hk : k = l then
      match JSVal.decEq x y, JSVal.decEqEntries xs ys with
      | isTrue h, isTrue h2 => isTrue (by rw [hk, h, h2])
      | isFalse h, _ => isFalse (by intro e; cases e; exact h rfl)
      | _, isFalse h => isFalse (by intro e; cases e; exact h rfl)
    else isFalse (by intro e; cases e; exact hk rfl)
end

instance : DecidableEq JSVal := JSVal.decEq

/-- An exception value: a `TypeError` raised by the language, or the reason a promise of the
backend SDK was rejected with. -/
inductive JSError where
  | typeError (message : String)
  | rejected (reason : String)
  deriving DecidableEq

deriving instance DecidableEq for Except

/-- Property definition on a raw entry list: overwrite the value of an existing key in place,
append a new key at the end. -/
def setEntry : List (String × JSVal) → String → JSVal → List (String × JSVal)
  | [], k, v => [(k, v)]
  | (k0, v0) :: rest, k, v =>
    if k0 = k then (k, v) :: rest else (k0, v0) :: setEntry rest k v

/-- A plain JavaScript object: own properties with pairwise distinct names. -/
structure Obj where
  entries : List (String × JSVal)
  nodup : (entries.map Prod.fst).Nodup

instance : DecidableEq Obj := fun a b =>
  if h : a.entries = b.entries then
    isTrue (by cases a; cases b; simp only [Obj.mk.injEq]; exact h)
  else isFalse (fun e => h (by rw [e]))

namespace Obj

/-- The object literal with no property. -/
def empty : Obj := ⟨[], List.nodup_nil⟩

/-- The object literal with the single property `k: v`. -/
def single (k : String) (v : JSVal) : Obj := ⟨[(k, v)], by simp⟩

/-- Property read `o[k]`: `undefined` when `o` has no property `k`. -/
def get (o : Obj) (k : String) : JSVal := (o.entries.lookup k).getD .undefined

/-- Own property names. -/
def keys (o : Obj) : List String := o.entries.map Prod.fst

/-- Own property test (`k in o` for a plain object). -/
def has (o : Obj) (k : String) : Bool := decide (k ∈ o.keys)

/-- Property write `o[k] = v` on a copy. -/
def set (o : Obj) (k : String) (v : JSVal) : Obj :=
  ⟨setEntry o.entries k v, by
    have key : ∀ (es : List (String × JSVal)), (es.map Prod.fst).Nodup →
        ((setEntry es k v).map Prod.fst).Nodup ∧
          ∀ x, x ∈ (setEntry es k v).map Prod.fst → x = k ∨ x ∈ es.map Prod.fst := by
      intro es
      induction es with
      | nil => intro _; simp [setEntry]
      | cons e rest ih =>
        obtain ⟨k0, v0⟩ := e
        intro hnd
        rw [List.map_cons, List.nodup_cons] at hnd
        by_cases hk : k0 = k
        · subst hk
          simp only [setEntry, if_true, List.map_cons, List.nodup_cons]
          exact ⟨⟨hnd.1, hnd.2⟩, fun x hx => Or.inr hx⟩
        · have ih2 := ih hnd.2
          simp only [setEntry, if_neg hk, List.map_cons, List.nodup_cons]
          refine ⟨⟨fun hmem => ?_, ih2.1⟩, fun x hx => ?_⟩
          · rcases ih2.2 k0 hmem with h | h
            · exact hk h
            · exact hnd.1 h
          · rcases List.mem_cons.mp hx with h | h
            · exact Or.inr (h ▸ List.mem_cons_self _ _)
            · rcases ih2.2 x h with h2 | h2
              · exact Or.inl h2
              · exact Or.inr (List.mem_cons_of_mem _ h2)
    exact (key o.entries o.nodup).1⟩

/-- Spread `{ ...target, ...source }`: the properties of `source` are defined on a copy of
`target` one after the other. -/
def spread (target source : Obj) : Obj :=
  source.entries.foldl (fun acc kv => acc.set kv.1 kv.2) target

end Obj

/-! ## Collaborators -/

/-- A document of a query snapshot: `doc.id` and `doc.data()`. -/
structure Doc where
  id : String
  data : Obj
  deriving DecidableEq

/-- The identity object handed over by the auth service; the dashboard reads no field. -/
structure User where
  uid : String
  deriving DecidableEq

/-! ## Component state -/

/-- The `Dashboard` component: its `useState` cells, followed by the two outputs it produces
besides the rendered tree (calls of `navigate`, calls of `console.error`). -/
structure Dashboard where
  tasks : List Obj := []
  editingTask : Option Obj := none
  loading : Bool := true
  user : Option User := none
  searchQuery : String := ""
  filteredTasks : List Obj := []
  navigated : List String := []
  consoleErrors : List (String × JSError) := []
  deriving DecidableEq

/-- The component right after mount: the initial value of every `useState` cell. -/
def Dashboard.mount : Dashboard := {}

/-- A setter call followed by the completion of the `async` handler. -/
abbrev Completed := Dashboard × Except JSError Unit

/-! ## Search effect (lines 62-68) -/

/-- `String.prototype.includes` on code sequences: the search string occurs at some
position of the receiver. -/
def includesChars : List Char → List Char → Bool
  | [], q => q.isPrefixOf []
  | c :: cs, q => q.isPrefixOf (c :: cs) || includesChars cs q

/-- `s.includes(q)`. -/
def includes (s q : String) : Bool := includesChars s.data q.data

/-- The filter callback
`task.title.toLowerCase().includes(searchQuery.toLowerCase())`.
Only a string has a callable `toLowerCase`; reading it from `undefined` or `null` and
calling it on any other value raises a `TypeError`. -/
def matchesSearch (toLowerCase : String → String) (searchQuery : String) (task : Obj) :
    Except JSError Bool :=
  match task.get "title" with
  | .str title => .ok (includes (toLowerCase title) (toLowerCase searchQuery))
  | .undefined => .error (.typeError "Cannot read properties of undefined")
  | .null => .error (.typeError "Cannot read properties of null")
  | _ => .error (.typeError "task.title.toLowerCase is not a function")

/-- `Array.prototype.filter` with a callback that may throw: the callback runs on every
element in order, the first exception aborts the call. -/
def filterTasks (callback : Obj → Except JSError Bool) : List Obj → Except JSError (List Obj)
  | [] => .ok []
  | task :: rest =>
    match callback task with
    | .error e => .error e
    | .ok keep =>
      match filterTasks callback rest with
      | .error e => .error e
      | .ok results => .ok (if keep then task :: results else results)

/-- The value `results` of the search effect. -/
def searchResults (toLowerCase : String → String) (tasks : List Obj) (searchQuery : String) :
    Except JSError (List Obj) :=
  filterTasks (matchesSearch toLowerCase searchQuery) tasks

/-- The search effect: `setFilteredTasks(results)`. -/
def searchEffect (toLowerCase : String → String) (s : Dashboard) : Except JSError Dashboard :=
  match searchResults toLowerCase s.tasks s.searchQuery with
  | .error e => .error e
  | .ok results => .ok { s with filteredTasks := results }

/-! ## Fetch effect (lines 29-48) -/

/-- The record built for one document: `{ id: doc.id, ...doc.data() }`. -/
def taskOfDoc (doc : Doc) : Obj := Obj.spread (Obj.single "id" (.str doc.id)) doc.data

/-- The `fetchTasks` function of the mount effect, given the outcome of `getDocs`. -/
def fetchTasks (s : Dashboard) (getDocs : Except JSError (List Doc)) : Dashboard :=
  let s1 := { s with loading := true }
  let s2 :=
    match getDocs with
    | .ok docs =>
      let tasksData := docs.map taskOfDoc
      { s1 with tasks := tasksData, filteredTasks := tasksData }
    | .error error =>
      { s1 with consoleErrors := s1.consoleErrors ++ [("Error fetching tasks:", error)] }
  { s2 with loading := false }

/-! ## Authentication effect (lines 50-60) -/

/-- The callback registered with `onAuthStateChanged`. -/
def authStateChanged (s : Dashboard) (currentUser : Option User) : Dashboard :=
  match currentUser with
  | some u => { s with user := some u }
  | none => { s with navigated := s.navigated ++ ["/login"] }

/-- The callback run on a sequence of notifications, oldest first. -/
def authStateChangedAll (s : Dashboard) (notifications : List (Option User)) : Dashboard :=
  notifications.foldl authStateChanged s

/-- Number of notifications without a user. -/
def countNoUser : List (Option User) → Nat
  | [] => 0
  | none :: rest => countNoUser rest + 1
  | some _ :: rest => countNoUser rest

/-- Number of notifications without a user that directly follow a notification with a user;
`present` tells whether the notification before the list carried a user. -/
def countSignOuts : Bool → List (Option User) → Nat
  | _, [] => 0
  | present, none :: rest => (if present then 1 else 0) + countSignOuts false rest
  | _, some _ :: rest => countSignOuts true rest

/-! ## Handlers (lines 70-103) -/

/-- `handleLogout`, given the outcome of `signOut`. -/
def handleLogout (s : Dashboard) (signOut : Except JSError Unit) : Completed :=
  match signOut with
  | .error e => (s, .error e)
  | .ok _ => ({ s with navigated := s.navigated ++ ["/login"] }, .ok ())

/-- `addTask`, given the outcome of `addDoc` (the `id` of the new document reference). -/
def addTask (s : Dashboard) (newTask : Obj) (addDoc : Except JSError String) : Completed :=
  match addDoc with
  | .error e => (s, .error e)
  | .ok id =>
    let updatedTasks := s.tasks ++ [Obj.spread (Obj.single "id" (.str id)) newTask]
    ({ s with tasks := updatedTasks, filteredTasks := updatedTasks }, .ok ())

/-- `deleteTask`, given the outcome of `deleteDoc`. -/
def deleteTask (s : Dashboard) (taskId : String) (deleteDoc : Except JSError Unit) :
    Completed :=
  match deleteDoc with
  | .error e => (s, .error e)
  | .ok _ =>
    let updatedTasks := s.tasks.filter (fun task => decide (task.get "id" ≠ .str taskId))
    ({ s with tasks := updatedTasks, filteredTasks := updatedTasks }, .ok ())

/-- `handleUpdateTask`, given the outcome of `updateDoc`. -/
def handleUpdateTask (s : Dashboard) (taskId : String) (updatedData : Obj)
    (updateDoc : Except JSError Unit) : Completed :=
  match updateDoc with
  | .error e => (s, .error e)
  | .ok _ =>
    let updatedTasks := s.tasks.map (fun task =>
      if task.get "id" = .str taskId then Obj.spread (Obj.spread Obj.empty task) updatedData
      else task)
    ({ s with tasks := updatedTasks, filteredTasks := updatedTasks, editingTask := none },
      .ok ())

/-! ## Rendered tree (lines 166-222) -/

/-- The elements of the rendered tree that depend on the state; styles are left out. -/
inductive Element where
  | h2 (text : String)
  | input (value : String)
  | button (text : String)
  | CircularProgress
  | p (text : String)
  | AddTask
  | TaskUpdateForm (task : Obj)
  | TaskList (tasks : List Obj) (pointerEvents : String)
  deriving DecidableEq

/-- The tree returned by the component, flattened in document order. -/
def render (s : Dashboard) : List Element :=
  [.h2 "Task Manager", .input s.searchQuery, .button "Logout"] ++
    (if s.loading then [.CircularProgress]
     else if s.filteredTasks.length = 0 then
       [.p "No tasks match your search. Add a new task to get started!"]
     else
       [.AddTask] ++
         (match s.editingTask with
          | some task => [.TaskUpdateForm task]
          | none => []) ++
         [.TaskList s.filteredTasks (if s.editingTask.isSome then "none" else "auto")])

/-! ## Reactions: a handler followed by the effect it triggers -/

/-- What the dashboard reacts to. -/
inductive Action where
  | fetchTasks (getDocs : Except JSError (List Doc))
  | setSearchQuery (value : String)
  | addTask (newTask : Obj) (addDoc : Except JSError String)
  | deleteTask (taskId : String) (deleteDoc : Except JSError Unit)
  | handleUpdateTask (taskId : String) (updatedData : Obj) (updateDoc : Except JSError Unit)
  | setEditingTask (task : Option Obj)
  | authStateChanged (currentUser : Option User)

/-- The state after the setter calls of an action, before any effect has run. -/
def Action.run (s : Dashboard) : Action → Dashboard
  | .fetchTasks getDocs => TaskManager.fetchTasks s getDocs
  | .setSearchQuery value => { s with searchQuery := value }
  | .addTask newTask addDoc => (TaskManager.addTask s newTask addDoc).1
  | .deleteTask taskId deleteDoc => (TaskManager.deleteTask s taskId deleteDoc).1
  | .handleUpdateTask taskId updatedData updateDoc =>
    (TaskManager.handleUpdateTask s taskId updatedData updateDoc).1
  | .setEditingTask task => { s with editingTask := task }
  | .authStateChanged currentUser => TaskManager.authStateChanged s currentUser

/-- Whether the dependency array `[searchQuery, tasks]` of the search effect changed:
`setTasks` was called (always with a freshly allocated array), or the search string is a
different string. -/
def Action.changesSearchDeps (s : Dashboard) : Action → Bool
  | .fetchTasks (.ok _) => true
  | .fetchTasks (.error _) => false
  | .setSearchQuery value => decide (value ≠ s.searchQuery)
  | .addTask _ (.ok _) => true
  | .addTask _ (.error _) => false
  | .deleteTask _ (.ok _) => true
  | .deleteTask _ (.error _) => false
  | .handleUpdateTask _ _ (.ok _) => true
  | .handleUpdateTask _ _ (.error _) => false
  | .setEditingTask _ => false
  | .authStateChanged _ => false

/-- The state once the render caused by an action has run its effects: the search effect
re-runs when its dependencies changed. -/
def settle (toLowerCase : String → String) (s : Dashboard) (a : Action) :
    Except JSError Dashboard :=
  if a.changesSearchDeps s then searchEffect toLowerCase (a.run s) else .ok (a.run s)

/-- States of a mounted dashboard whose effects have run: the state after mount (where the
search effect computed the empty list from the empty list), and every state a settled
action leads to. -/
inductive Settled (toLowerCase : String → String) : Dashboard → Prop where
  | mount : Settled toLowerCase Dashboard.mount
  | step (s : Dashboard) (a : Action) (t : Dashboard) :
      Settled toLowerCase s → settle toLowerCase s a = .ok t → Settled toLowerCase t

/-- Lower-casing of the letters `A`-`Z`, which is what `toLowerCase` does on ASCII text. -/
def asciiLower (s : String) : String := ⟨s.data.map Char.toLower⟩

/-! ## The specification's matching predicate and sample data -/

/-- Section 8 of the specification, in its own words: the lower-cased title of the task
contains the lower-cased search string as a substring. -/
def TitleContains (toLowerCase : String → String) (q : String) (t : Obj) : Prop :=
  ∃ title, t.get "title" = .str title ∧ (toLowerCase q).data <:+: (toLowerCase title).data

/-- The task has a string title. -/
def HasStringTitle (t : Obj) : Prop := ∃ title, t.get "title" = .str title

/-- The record `{id: "1", title: "Buy milk"}` of the specification's scenario. -/
def buyMilk : Obj := ⟨[("id", .str "1"), ("title", .str "Buy milk")], by decide⟩

/-- The record `{id: "2", title: "Pay rent"}` of the specification's scenario. -/
def payRent : Obj := ⟨[("id", .str "2"), ("title", .str "Pay rent")], by decide⟩

/-- A loaded dashboard showing the two records of the scenario. -/
def scenario : Dashboard :=
  { tasks := [buyMilk, payRent], filteredTasks := [buyMilk, payRent], loading := false }

/-- The field map `{id: "1", title: "Call bank"}`: a new task that carries an `id` field of
its own. -/
def callBankWithId : Obj := ⟨[("id", .str "1"), ("title", .str "Call bank")], by decide⟩

/-- The field map `{title: "Call bank"}`. -/
def callBank : Obj := ⟨[("title", .str "Call bank")], by decide⟩

/-- The record `{id: "3", title: "Call bank"}`. -/
def callBankRecord : Obj := ⟨[("id", .str "3"), ("title", .str "Call bank")], by decide⟩

/-- Two documents with distinct document identifiers whose data both hold `id: "1"`. -/
def docsSharingId : List Doc :=
  [⟨"a", ⟨[("id", .str "1"), ("title", .str "Buy milk")], by decide⟩⟩,
   ⟨"b", ⟨[("id", .str "1"), ("title", .str "Pay rent")], by decide⟩⟩]

/-- The documents behind the two records of the scenario. -/
def scenarioDocs : List Doc :=
  [⟨"1", ⟨[("title", .str "Buy milk")], by decide⟩⟩,
   ⟨"2", ⟨[("title", .str "Pay rent")], by decide⟩⟩]

/-- The scenario after `milk` was typed into the search box and the search effect ran. -/
def searching : Dashboard :=
  { scenario with searchQuery := "milk", filteredTasks := [buyMilk] }

/-! ## Lemmas on strings and objects -/

theorem includesChars_iff (s q : List Char) : includesChars s q = true ↔ q <:+: s := by
  induction s with
  | nil => simp [includesChars, List.isPrefixOf_iff_prefix]
  | cons c cs ih =>
    simp only [includesChars, Bool.or_eq_true, List.isPrefixOf_iff_prefix, ih,
      List.infix_cons_iff]

theorem includesChars_nil (s : List Char) : includesChars s [] = true :=
  (includesChars_iff s []).2 ⟨[], s, rfl⟩

theorem lookup_cons_eq (k0 : String) (v0 : JSVal) (rest : List (String × JSVal))
    (x : String) :
    ((k0, v0) :: rest).lookup x = if x = k0 then some v0 else rest.lookup x := by
  by_cases hx : x = k0
  · have hb : (x == k0) = true := by simpa using hx
    simp [List.lookup, hb, hx]
  · have hb : (x == k0) = false := by simpa using hx
    simp [List.lookup, hb, hx]

theorem lookup_setEntry (es : List (String × JSVal)) (k : String) (v : JSVal) (x : String) :
    (setEntry es k v).lookup x = if x = k then some v else es.lookup x := by
  induction es with
  | nil => simp [setEntry, lookup_cons_eq]
  | cons e rest ih =>
    obtain ⟨k0, v0⟩ := e
    by_cases hk : k0 = k
    · subst hk
      simp only [setEntry, if_true, lookup_cons_eq]
      split <;> rfl
    · simp only [setEntry, if_neg hk, lookup_cons_eq, ih]
      by_cases hx0 : x = k0
      · have hxk : ¬ x = k := fun h => hk (hx0 ▸ h)
        simp [hx0, hk]
      · simp [hx0]

theorem mem_keys_setEntry (es : List (String × JSVal)) (k : String) (v : JSVal) (x : String) :
    x ∈ (setEntry es k v).map Prod.fst ↔ x = k ∨ x ∈ es.map Prod.fst := by
  induction es with
  | nil => simp [setEntry]
  | cons e rest ih =>
    obtain ⟨k0, v0⟩ := e
    by_cases hk : k0 = k
    · subst hk
      simp only [setEntry, if_true, List.map_cons, List.mem_cons]
      tauto
    · simp only [setEntry, if_neg hk, List.map_cons, List.mem_cons, ih]
      tauto

theorem lookup_eq_none_of_not_mem (es : List (String × JSVal)) (x : String)
    (h : x ∉ es.map Prod.fst) : es.lookup x = none := by
  induction es with
  | nil => rfl
  | cons e rest ih =>
    obtain ⟨k0, v0⟩ := e
    simp only [List.map_cons, List.mem_cons, not_or] at h
    rw [lookup_cons_eq, if_neg h.1]
    exact ih h.2

namespace Obj

theorem get_set (o : Obj) (k : String) (v : JSVal) (x : String) :
    (o.set k v).get x = if x = k then v else o.get x := by
  unfold Obj.get Obj.set
  simp only [lookup_setEntry]
  split <;> rfl

theorem has_iff (o : Obj) (x : String) : o.has x = true ↔ x ∈ o.entries.map Prod.fst := by
  simp only [Obj.has, Obj.keys, decide_eq_true_eq]

theorem has_set (o : Obj) (k : String) (v : JSVal) (x : String) :
    (o.set k v).has x = true ↔ x = k ∨ o.has x = true := by
  rw [has_iff, has_iff]
  exact mem_keys_setEntry o.entries k v x

theorem get_of_not_has (o : Obj) (x : String) (h : o.has x = false) :
    o.get x = .undefined := by
  have hx : x ∉ o.entries.map Prod.fst := by
    intro hmem
    rw [(has_iff o x).2 hmem] at h
    exact Bool.noConfusion h
  simp [Obj.get, lookup_eq_none_of_not_mem _ _ hx]

theorem get_foldl_set (es : List (String × JSVal)) (hnd : (es.map Prod.fst).Nodup)
    (t : Obj) (x : String) :
    (es.foldl (fun acc kv => acc.set kv.1 kv.2) t).get x =
      if x ∈ es.map Prod.fst then (es.lookup x).getD .undefined else t.get x := by
  induction es generalizing t with
  | nil => simp
  | cons e rest ih =>
    obtain ⟨k0, v0⟩ := e
    rw [List.map_cons, List.nodup_cons] at hnd
    rw [List.foldl_cons, ih hnd.2, get_set, lookup_cons_eq]
    by_cases hx0 : x = k0
    · subst hx0
      simp [hnd.1]
    · rw [if_neg hx0, if_neg hx0]
      by_cases hm : x ∈ rest.map Prod.fst
      · have hm1 : x ∈ List.map Prod.fst ((k0, v0) :: rest) := List.mem_cons_of_mem _ hm
        rw [if_pos hm, if_pos hm1]
      · have hm2 : x ∉ List.map Prod.fst ((k0, v0) :: rest) := by
          intro h
          rcases List.mem_cons.mp h with h | h
          · exact hx0 h
          · exact hm h
        rw [if_neg hm, if_neg hm2]

theorem has_foldl_set (es : List (String × JSVal)) (t : Obj) (x : String) :
    (es.foldl (fun acc kv => acc.set kv.1 kv.2) t).has x = true ↔
      t.has x = true ∨ x ∈ es.map Prod.fst := by
  induction es generalizing t with
  | nil => simp
  | cons e rest ih =>
    obtain ⟨k0, v0⟩ := e
    rw [List.foldl_cons, ih, has_set]
    simp only [List.map_cons, List.mem_cons]
    tauto

/-- Reading a property of `{ ...target, ...source }`. -/
theorem get_spread (target source : Obj) (x : String) :
    (spread target source).get x =
      if source.has x = true then source.get x else target.get x := by
  unfold spread
  rw [get_foldl_set _ source.nodup]
  by_cases hx : x ∈ source.entries.map Prod.fst
  · rw [if_pos hx, if_pos ((has_iff source x).2 hx)]; rfl
  · rw [if_neg hx, if_neg (fun h => hx ((has_iff source x).1 h))]

/-- Own properties of `{ ...target, ...source }`. -/
theorem has_spread (target source : Obj) (x : String) :
    (spread target source).has x = true ↔ target.has x = true ∨ source.has x = true := by
  unfold spread
  rw [has_foldl_set, has_iff source]

theorem get_single (k : String) (v : JSVal) (x : String) :
    (single k v).get x = if x = k then v else .undefined := by
  unfold Obj.get single
  rw [lookup_cons_eq]
  by_cases hx : x = k
  · rw [if_pos hx, if_pos hx]; rfl
  · rw [if_neg hx, if_neg hx]; rfl

theorem has_single (k : String) (v : JSVal) (x : String) :
    (single k v).has x = true ↔ x = k := by
  rw [has_iff]; simp [single]

theorem has_empty (x : String) : empty.has x = false := by
  simp [Obj.has, Obj.keys, empty]

theorem get_spread_empty (o : Obj) (x : String) : (spread empty o).get x = o.get x := by
  rw [get_spread]
  by_cases h : o.has x = true
  · rw [if_pos h]
  · rw [if_neg h]
    have h2 : o.has x = false := by simpa using h
    rw [get_of_not_has o x h2, get_of_not_has empty x (has_empty x)]

theorem has_spread_empty (o : Obj) (x : String) :
    (spread empty o).has x = o.has x := by
  have h := has_spread empty o x
  rw [has_empty] at h
  cases h1 : (spread empty o).has x <;> cases h2 : o.has x <;> simp_all

end Obj

/-! ## Lemmas on the search effect -/

theorem filterTasks_ok (callback : Obj → Except JSError Bool) (p : Obj → Bool)
    (L : List Obj) (h : ∀ t ∈ L, callback t = .ok (p t)) :
    filterTasks callback L = .ok (L.filter p) := by
  induction L with
  | nil => rfl
  | cons t rest ih =>
    have ht := h t (List.mem_cons_self _ _)
    have hrest := ih (fun u hu => h u (List.mem_cons_of_mem _ hu))
    simp only [filterTasks, ht, hrest, List.filter_cons]

theorem filterTasks_error_iff (callback : Obj → Except JSError Bool) (L : List Obj) :
    (∃ e, filterTasks callback L = .error e) ↔ ∃ t ∈ L, ∃ e, callback t = .error e := by
  induction L with
  | nil => simp [filterTasks]
  | cons t rest ih =>
    cases ht : callback t with
    | error e =>
      simp only [filterTasks, ht]
      exact ⟨fun _ => ⟨t, List.mem_cons_self _ _, e, ht⟩, fun _ => ⟨e, rfl⟩⟩
    | ok keep =>
      cases hr : filterTasks callback rest with
      | error e =>
        have hex : ∃ u ∈ rest, ∃ e, callback u = .error e := ih.1 ⟨e, hr⟩
        simp only [filterTasks, ht, hr]
        refine ⟨fun _ => ?_, fun _ => ⟨e, rfl⟩⟩
        obtain ⟨u, hu, hue⟩ := hex
        exact ⟨u, List.mem_cons_of_mem _ hu, hue⟩
      | ok results =>
        simp only [filterTasks, ht, hr]
        constructor
        · rintro ⟨e, he⟩
          exact Except.noConfusion he
        · rintro ⟨u, hu, e, hue⟩
          rcases List.mem_cons.mp hu with h | h
          · rw [h, ht] at hue
            exact Except.noConfusion hue
          · have := ih.2 ⟨u, h, e, hue⟩
            rw [hr] at this
            obtain ⟨e2, he2⟩ := this
            exact Except.noConfusion he2

theorem matchesSearch_str (toLowerCase : String → String) (q : String) (t : Obj)
    (title : String) (h : t.get "title" = .str title) :
    matchesSearch toLowerCase q t = .ok (includes (toLowerCase title) (toLowerCase q)) := by
  simp only [matchesSearch, h]

theorem matchesSearch_error_iff (toLowerCase : String → String) (q : String) (t : Obj) :
    (∃ e, matchesSearch toLowerCase q t = .error e) ↔ ¬ HasStringTitle t := by
  unfold HasStringTitle
  cases h : t.get "title" <;> simp [matchesSearch, h]

/-- The Boolean the filter callback computes on a task with a string title. -/
theorem includes_iff (toLowerCase : String → String) (q : String) (t : Obj) (title : String)
    (h : t.get "title" = .str title) :
    includes (toLowerCase title) (toLowerCase q) = true ↔ TitleContains toLowerCase q t := by
  unfold includes TitleContains
  rw [includesChars_iff, h]
  constructor
  · intro hin
    exact ⟨title, rfl, hin⟩
  · rintro ⟨title2, heq, hin⟩
    cases heq
    exact hin

theorem searchResults_error_iff (toLowerCase : String → String) (L : List Obj) (q : String) :
    (∃ e, searchResults toLowerCase L q = .error e) ↔ ∃ t ∈ L, ¬ HasStringTitle t := by
  unfold searchResults
  rw [filterTasks_error_iff]
  constructor
  · rintro ⟨t, ht, he⟩
    exact ⟨t, ht, (matchesSearch_error_iff toLowerCase q t).1 he⟩
  · rintro ⟨t, ht, hn⟩
    exact ⟨t, ht, (matchesSearch_error_iff toLowerCase q t).2 hn⟩

theorem searchEffect_error_iff (toLowerCase : String → String) (s : Dashboard) :
    (∃ e, searchEffect toLowerCase s = .error e) ↔
      ∃ e, searchResults toLowerCase s.tasks s.searchQuery = .error e := by
  unfold searchEffect
  cases h : searchResults toLowerCase s.tasks s.searchQuery <;> simp

/-- The search results when every title is a string: the filter by the Boolean test. -/
theorem searchResults_of_titles (toLowerCase : String → String) (L : List Obj) (q : String)
    (h : ∀ t ∈ L, HasStringTitle t) :
    searchResults toLowerCase L q = .ok (L.filter (fun t =>
      match t.get "title" with
      | .str title => includes (toLowerCase title) (toLowerCase q)
      | _ => false)) := by
  unfold searchResults
  apply filterTasks_ok
  intro t ht
  obtain ⟨title, htitle⟩ := h t ht
  simp only [matchesSearch, htitle]

/-! ## Search -/

theorem scenario_titles : ∀ t ∈ scenario.tasks, HasStringTitle t := by
  intro t ht
  have h2 : t = buyMilk ∨ t = payRent := by simpa [scenario] using ht
  rcases h2 with h | h
  · exact ⟨"Buy milk", by rw [h]; decide⟩
  · exact ⟨"Pay rent", by rw [h]; decide⟩

/-- C1. When every task of the list has a string title, the search effect completes and
sets the filtered list to exactly the tasks (in list order) whose lower-cased title contains
the lower-cased search string; with the empty search string that is the whole list, and
with a search string contained in no title it is the empty list. -/
theorem search_effect_filters_by_title (toLowerCase : String → String) (s : Dashboard)
    (hlower : toLowerCase "" = "") (htitles : ∀ t ∈ s.tasks, HasStringTitle t) :
    (∃ p : Obj → Bool,
        (∀ t ∈ s.tasks, p t = true ↔ TitleContains toLowerCase s.searchQuery t) ∧
        searchEffect toLowerCase s = .ok { s with filteredTasks := s.tasks.filter p }) ∧
      (s.searchQuery = "" →
        searchEffect toLowerCase s = .ok { s with filteredTasks := s.tasks }) ∧
      ((∀ t ∈ s.tasks, ¬ TitleContains toLowerCase s.searchQuery t) →
        searchEffect toLowerCase s = .ok { s with filteredTasks := [] }) := by
  have hres := searchResults_of_titles toLowerCase s.tasks s.searchQuery htitles
  have hp : ∀ t ∈ s.tasks,
      (match t.get "title" with
        | .str title => includes (toLowerCase title) (toLowerCase s.searchQuery)
        | _ => false) = true ↔ TitleContains toLowerCase s.searchQuery t := by
    intro t ht
    obtain ⟨title, htitle⟩ := htitles t ht
    have := includes_iff toLowerCase s.searchQuery t title htitle
    simp only [htitle]
    exact this
  refine ⟨⟨_, hp, ?_⟩, ?_, ?_⟩
  · simp only [searchEffect, hres]
  · intro hq
    have hall : ∀ t ∈ s.tasks,
        (match t.get "title" with
          | .str title => includes (toLowerCase title) (toLowerCase s.searchQuery)
          | _ => false) = true := by
      intro t ht
      obtain ⟨title, htitle⟩ := htitles t ht
      simp only [htitle, hq, hlower, includes]
      exact includesChars_nil _
    simp only [searchEffect, hres, List.filter_eq_self.2 hall]
  · intro hnone
    have hall : ∀ t ∈ s.tasks,
        ¬ (match t.get "title" with
          | .str title => includes (toLowerCase title) (toLowerCase s.searchQuery)
          | _ => false) = true := by
      intro t ht hm
      exact hnone t ht ((hp t ht).1 hm)
    simp only [searchEffect, hres, List.filter_eq_nil_iff.2 hall]

/-- The scenario of the specification: with the empty search string the effect keeps both
records. -/
theorem search_effect_filters_by_title_witness :
    asciiLower "" = "" ∧ (∀ t ∈ scenario.tasks, HasStringTitle t) ∧
      searchEffect asciiLower scenario =
        .ok { scenario with filteredTasks := scenario.tasks } :=
  ⟨by decide, scenario_titles,
    (search_effect_filters_by_title asciiLower scenario (by decide) scenario_titles).2.1
      (by decide)⟩

/-- The scenario of the specification: searching `milk` keeps the first record only, and
letter case is ignored. -/
theorem scenario_search_milk :
    searchEffect asciiLower { scenario with searchQuery := "milk" } = .ok searching ∧
      searchEffect asciiLower { scenario with searchQuery := "MILK" } =
        .ok { searching with searchQuery := "MILK" } := by
  decide

/-- C10. The search effect raises exactly when some task of the list has no string title;
when every task has one it completes with a list; and neither `addTask` nor
`handleUpdateTask` looks at the title: whenever the backend call succeeds they complete and
store the title they were given, string or not. -/
theorem search_raises_iff_title_not_string (toLowerCase : String → String) (s : Dashboard) :
    ((∃ e, searchEffect toLowerCase s = .error e) ↔ ∃ t ∈ s.tasks, ¬ HasStringTitle t) ∧
      ((∀ t ∈ s.tasks, HasStringTitle t) →
        ∃ results, searchEffect toLowerCase s = .ok { s with filteredTasks := results }) ∧
      (∀ (newTask : Obj) (id : String),
        (addTask s newTask (.ok id)).2 = .ok () ∧
          ∃ r, (addTask s newTask (.ok id)).1.tasks = s.tasks ++ [r] ∧
            r.get "title" = newTask.get "title") ∧
      (∀ (taskId : String) (updatedData : Obj),
        (handleUpdateTask s taskId updatedData (.ok ())).2 = .ok () ∧
          ∀ (i : Nat) (old : Obj), s.tasks[i]? = some old → old.get "id" = .str taskId →
            updatedData.has "title" = true →
            ∃ r, (handleUpdateTask s taskId updatedData (.ok ())).1.tasks[i]? = some r ∧
              r.get "title" = updatedData.get "title") := by
  refine ⟨?_, ?_, ?_, ?_⟩
  · rw [searchEffect_error_iff, searchResults_error_iff]
  · intro h
    refine ⟨s.tasks.filter (fun t =>
      match t.get "title" with
      | .str title => includes (toLowerCase title) (toLowerCase s.searchQuery)
      | _ => false), ?_⟩
    simp only [searchEffect, searchResults_of_titles toLowerCase s.tasks s.searchQuery h]
  · intro newTask id
    refine ⟨rfl, _, rfl, ?_⟩
    rw [Obj.get_spread]
    by_cases h : newTask.has "title" = true
    · rw [if_pos h]
    · have h2 : newTask.has "title" = false := by simpa using h
      rw [if_neg h, Obj.get_of_not_has newTask _ h2, Obj.get_single]
      rfl
  · intro taskId updatedData
    refine ⟨rfl, ?_⟩
    intro i old hold hid htitle
    refine ⟨Obj.spread (Obj.spread Obj.empty old) updatedData, ?_, ?_⟩
    · simp only [handleUpdateTask, List.getElem?_map, hold, Option.map_some', hid, if_true]
    · rw [Obj.get_spread, if_pos htitle]

/-! ## Mutations -/

theorem length_filter_add_countP (p : Obj → Bool) (L : List Obj) :
    (L.filter (fun t => !p t)).length + L.countP p = L.length := by
  induction L with
  | nil => rfl
  | cons t rest ih =>
    cases h : p t
    · simp [List.filter_cons, List.countP_cons, h]
      omega
    · simp [List.filter_cons, List.countP_cons, h]
      omega

theorem deleteTask_tasks (s : Dashboard) (taskId : String) :
    (deleteTask s taskId (.ok ())).1.tasks =
      s.tasks.filter (fun t => !decide (t.get "id" = .str taskId)) := by
  simp only [deleteTask]
  congr 1
  funext t
  simp

theorem countP_id_le_one (L : List Obj) (taskId : String)
    (hnd : (L.map (fun t => t.get "id")).Nodup) :
    L.countP (fun t => decide (t.get "id" = .str taskId)) ≤ 1 := by
  induction L with
  | nil => simp
  | cons t rest ih =>
    rw [List.map_cons, List.nodup_cons] at hnd
    have ih2 := ih hnd.2
    by_cases h : t.get "id" = .str taskId
    · have hzero : rest.countP (fun t => decide (t.get "id" = .str taskId)) = 0 := by
        rw [List.countP_eq_zero]
        intro u hu hdec
        have hu2 : u.get "id" = .str taskId := by simpa using hdec
        exact hnd.1 (List.mem_map.2 ⟨u, hu, by rw [hu2, h]⟩)
      simp [List.countP_cons, h, hzero]
    · simp [List.countP_cons, h]
      exact ih2

/-- C2 fails as stated: a new task that carries an `id` field keeps that field, so the
appended record does not have the generated identifier `"3"` and shares its identifier
with a record already in the list. -/
theorem addTask_id_field_replaces_generated_id :
    (∀ t ∈ scenario.tasks, t.get "id" ≠ .str "3") ∧
      (addTask scenario callBankWithId (.ok "3")).2 = .ok () ∧
      (addTask scenario callBankWithId (.ok "3")).1.tasks =
        [buyMilk, payRent, callBankWithId] ∧
      callBankWithId.get "id" ≠ .str "3" ∧
      callBankWithId.get "id" = buyMilk.get "id" := by
  decide

/-- C2, amended. For a field map without an `id` field, a successful `addTask` appends one
record to the unchanged list; the record is the field map plus `id` set to the generated
identifier, which is non-empty and unused in the list whenever the backend returned a
non-empty and unused identifier. -/
theorem addTask_appends_record_with_generated_id (s : Dashboard) (newTask : Obj)
    (g : String) (hid : newTask.has "id" = false) :
    (addTask s newTask (.ok g)).2 = .ok () ∧
      (addTask s newTask (.ok g)).1.tasks.length = s.tasks.length + 1 ∧
      (addTask s newTask (.ok g)).1.tasks.take s.tasks.length = s.tasks ∧
      ∃ r, (addTask s newTask (.ok g)).1.tasks = s.tasks ++ [r] ∧
        r.get "id" = .str g ∧
        (∀ k, k ≠ "id" → r.get k = newTask.get k) ∧
        (∀ k, r.has k = true ↔ k = "id" ∨ newTask.has k = true) ∧
        (g ≠ "" → r.get "id" ≠ .str "") ∧
        ((∀ t ∈ s.tasks, t.get "id" ≠ .str g) → ∀ t ∈ s.tasks, t.get "id" ≠ r.get "id") := by
  have hget : (Obj.spread (Obj.single "id" (.str g)) newTask).get "id" = .str g := by
    rw [Obj.get_spread, hid, Obj.get_single]
    simp
  refine ⟨rfl, by simp [addTask], by simp [addTask], _, rfl, hget, ?_, ?_, ?_, ?_⟩
  · intro k hk
    rw [Obj.get_spread]
    by_cases h : newTask.has k = true
    · rw [if_pos h]
    · have h2 : newTask.has k = false := by simpa using h
      rw [if_neg h, Obj.get_of_not_has newTask k h2, Obj.get_single, if_neg hk]
  · intro k
    rw [Obj.has_spread, Obj.has_single]
  · intro hg
    rw [hget]
    intro h
    exact hg (by injection h)
  · intro hfresh t ht
    rw [hget]
    exact hfresh t ht

/-- Adding `{title: "Call bank"}` to the scenario with generated identifier `"3"`. -/
theorem addTask_appends_record_with_generated_id_witness :
    callBank.has "id" = false ∧
      (addTask scenario callBank (.ok "3")).1.tasks.length = scenario.tasks.length + 1 :=
  ⟨by decide, (addTask_appends_record_with_generated_id scenario callBank "3" (by decide)).2.1⟩

/-- C3 fails as stated: after loading two documents whose data both hold `id: "1"`, the
list has two records with identifier `"1"`, and `deleteTask("1")` removes both, so the
length drops from 2 to 0. -/
theorem deleteTask_removes_every_record_with_id :
    (fetchTasks Dashboard.mount (.ok docsSharingId)).tasks.length = 2 ∧
      (∃ t ∈ (fetchTasks Dashboard.mount (.ok docsSharingId)).tasks, t.get "id" = .str "1") ∧
      (deleteTask (fetchTasks Dashboard.mount (.ok docsSharingId)) "1" (.ok ())).2 = .ok () ∧
      (deleteTask (fetchTasks Dashboard.mount (.ok docsSharingId)) "1" (.ok ())).1.tasks.length ≠
        (fetchTasks Dashboard.mount (.ok docsSharingId)).tasks.length - 1 := by
  refine ⟨by decide, ⟨_, List.mem_cons_self _ _, by decide⟩, by decide, by decide⟩

/-- C3, amended. A successful `deleteTask(id)` keeps, in order, exactly the records whose
identifier is not `id`: the length drops by the number of records with identifier `id`, no
remaining record has it, a list without it is unchanged, and the length drops by exactly
one when exactly one record has it, as when the identifiers of the list are pairwise
distinct and `id` is among them. -/
theorem deleteTask_removes_records_with_id (s : Dashboard) (taskId : String) :
    (deleteTask s taskId (.ok ())).2 = .ok () ∧
      (deleteTask s taskId (.ok ())).1.tasks.length +
          s.tasks.countP (fun t => decide (t.get "id" = .str taskId)) = s.tasks.length ∧
      (∀ t ∈ (deleteTask s taskId (.ok ())).1.tasks, t.get "id" ≠ .str taskId) ∧
      (deleteTask s taskId (.ok ())).1.tasks.Sublist s.tasks ∧
      (∀ t ∈ s.tasks, t.get "id" ≠ .str taskId → t ∈ (deleteTask s taskId (.ok ())).1.tasks) ∧
      (s.tasks.countP (fun t => decide (t.get "id" = .str taskId)) = 1 →
        (deleteTask s taskId (.ok ())).1.tasks.length = s.tasks.length - 1) ∧
      ((s.tasks.map (fun t => t.get "id")).Nodup →
        (∃ t ∈ s.tasks, t.get "id" = .str taskId) →
        (deleteTask s taskId (.ok ())).1.tasks.length = s.tasks.length - 1) ∧
      ((∀ t ∈ s.tasks, t.get "id" ≠ .str taskId) →
        (deleteTask s taskId (.ok ())).1.tasks = s.tasks ∧
          (deleteTask s taskId (.ok ())).1.tasks.length = s.tasks.length) := by
  have hlen := length_filter_add_countP (fun t => decide (t.get "id" = .str taskId)) s.tasks
  rw [← deleteTask_tasks] at hlen
  refine ⟨rfl, hlen, ?_, ?_, ?_, ?_, ?_, ?_⟩
  · intro t ht
    rw [deleteTask_tasks] at ht
    have := (List.mem_filter.1 ht).2
    simpa using this
  · rw [deleteTask_tasks]
    exact List.filter_sublist _
  · intro t ht hne
    rw [deleteTask_tasks]
    exact List.mem_filter.2 ⟨ht, by simpa using hne⟩
  · intro hone
    omega
  · intro hnd hex
    have hle := countP_id_le_one s.tasks taskId hnd
    have hpos : 0 < s.tasks.countP (fun t => decide (t.get "id" = .str taskId)) := by
      rw [List.countP_pos_iff]
      obtain ⟨t, ht, hid⟩ := hex
      exact ⟨t, ht, by simpa using hid⟩
    omega
  · intro hnone
    have hall : ∀ t ∈ s.tasks, (!decide (t.get "id" = .str taskId)) = true := by
      intro t ht
      simpa using hnone t ht
    have heq : (deleteTask s taskId (.ok ())).1.tasks = s.tasks := by
      rw [deleteTask_tasks]
      exact List.filter_eq_self.2 hall
    exact ⟨heq, by rw [heq]⟩

/-- C4. After a successful `handleUpdateTask(id, updatedData)` the list has the same length
and, position by position: a record whose identifier was `id` has the value of
`updatedData` at every key of `updatedData` and its previous value (and presence) at every
other key; a record with a different identifier is unchanged; the filtered list is written
with the same records; and no task is selected for editing. -/
theorem handleUpdateTask_merges_fields (s : Dashboard) (taskId : String)
    (updatedData : Obj) :
    (handleUpdateTask s taskId updatedData (.ok ())).2 = .ok () ∧
      (handleUpdateTask s taskId updatedData (.ok ())).1.editingTask = none ∧
      (handleUpdateTask s taskId updatedData (.ok ())).1.tasks.length = s.tasks.length ∧
      (handleUpdateTask s taskId updatedData (.ok ())).1.filteredTasks =
        (handleUpdateTask s taskId updatedData (.ok ())).1.tasks ∧
      ∀ (i : Nat) (old : Obj), s.tasks[i]? = some old →
        ∃ r, (handleUpdateTask s taskId updatedData (.ok ())).1.tasks[i]? = some r ∧
          (old.get "id" = .str taskId →
            (∀ k, updatedData.has k = true →
              r.get k = updatedData.get k ∧ r.has k = true) ∧
            (∀ k, updatedData.has k = false →
              r.get k = old.get k ∧ r.has k = old.has k)) ∧
          (old.get "id" ≠ .str taskId → r = old) := by
  refine ⟨rfl, rfl, by simp [handleUpdateTask], rfl, ?_⟩
  intro i old hold
  by_cases hid : old.get "id" = .str taskId
  · refine ⟨Obj.spread (Obj.spread Obj.empty old) updatedData, ?_, ?_, ?_⟩
    · simp only [handleUpdateTask, List.getElem?_map, hold, Option.map_some', hid, if_true]
    · intro _
      refine ⟨fun k hk => ⟨?_, ?_⟩, fun k hk => ⟨?_, ?_⟩⟩
      · rw [Obj.get_spread, if_pos hk]
      · exact (Obj.has_spread _ _ k).2 (Or.inr hk)
      · rw [Obj.get_spread, hk, Obj.get_spread_empty]
        simp
      · have h1 := Obj.has_spread (Obj.spread Obj.empty old) updatedData k
        rw [hk, Obj.has_spread_empty] at h1
        cases h2 : (Obj.spread (Obj.spread Obj.empty old) updatedData).has k <;>
          cases h3 : old.has k <;> simp_all
    · intro hne
      exact absurd hid hne
  · refine ⟨old, ?_, ?_, ?_⟩
    · simp only [handleUpdateTask, List.getElem?_map, hold, Option.map_some', hid, if_false]
    · intro h
      exact absurd h hid
    · intro _
      rfl

/-- C5. When the backend call of `addTask`, `deleteTask` or `handleUpdateTask` fails, the
handler fails with the same error and the component is exactly what it was before the
call; no effect re-runs afterwards. -/
theorem failed_mutation_leaves_state (toLowerCase : String → String) (s : Dashboard)
    (e : JSError) (newTask : Obj) (taskId : String) (updatedData : Obj) :
    addTask s newTask (.error e) = (s, .error e) ∧
      deleteTask s taskId (.error e) = (s, .error e) ∧
      handleUpdateTask s taskId updatedData (.error e) = (s, .error e) ∧
      settle toLowerCase s (.addTask newTask (.error e)) = .ok s ∧
      settle toLowerCase s (.deleteTask taskId (.error e)) = .ok s ∧
      settle toLowerCase s (.handleUpdateTask taskId updatedData (.error e)) = .ok s :=
  ⟨rfl, rfl, rfl, rfl, rfl, rfl⟩

/-- C7. Whatever the prior state and the outcome of the bulk read, `fetchTasks` ends with
the loading flag false. After a successful read the full list and the filtered list are
both the list of records `{ id: doc.id, ...doc.data() }`, one per document in document
order; after a failed read both lists are what they were and the error was logged. -/
theorem fetchTasks_outcome (s : Dashboard) (getDocs : Except JSError (List Doc)) :
    (fetchTasks s getDocs).loading = false ∧
      (∀ docs, getDocs = .ok docs →
        (fetchTasks s getDocs).tasks = docs.map taskOfDoc ∧
          (fetchTasks s getDocs).filteredTasks = docs.map taskOfDoc ∧
          (fetchTasks s getDocs).tasks.length = docs.length ∧
          ∀ (i : Nat) (d : Doc), docs[i]? = some d →
            ∃ r, (fetchTasks s getDocs).tasks[i]? = some r ∧
              ∀ k, r.get k =
                if d.data.has k = true then d.data.get k
                else if k = "id" then .str d.id else .undefined) ∧
      (∀ e, getDocs = .error e →
        (fetchTasks s getDocs).tasks = s.tasks ∧
          (fetchTasks s getDocs).filteredTasks = s.filteredTasks ∧
          (fetchTasks s getDocs).consoleErrors =
            s.consoleErrors ++ [("Error fetching tasks:", e)]) := by
  refine ⟨?_, ?_, ?_⟩
  · cases getDocs <;> rfl
  · intro docs h
    subst h
    refine ⟨rfl, rfl, by simp [fetchTasks], ?_⟩
    intro i d hd
    refine ⟨taskOfDoc d, by simp [fetchTasks, List.getElem?_map, hd], ?_⟩
    intro k
    rw [taskOfDoc, Obj.get_spread, Obj.get_single]
  · intro e h
    subst h
    exact ⟨rfl, rfl, rfl⟩

/-! ## Authentication -/

theorem authStateChangedAll_navigated (ns : List (Option User)) (s : Dashboard) :
    (authStateChangedAll s ns).navigated =
      s.navigated ++ List.replicate (countNoUser ns) "/login" := by
  induction ns generalizing s with
  | nil => simp [authStateChangedAll, countNoUser]
  | cons n rest ih =>
    have hstep : authStateChangedAll s (n :: rest) =
        authStateChangedAll (authStateChanged s n) rest := rfl
    rw [hstep, ih]
    cases n with
    | none =>
      simp only [authStateChanged, countNoUser, List.append_assoc]
      congr 1
    | some u => simp only [authStateChanged, countNoUser]

theorem countSignOuts_le (ns : List (Option User)) (present : Bool) :
    countSignOuts present ns ≤ countNoUser ns := by
  induction ns generalizing present with
  | nil => simp [countSignOuts, countNoUser]
  | cons n rest ih =>
    cases n with
    | none =>
      have := ih false
      cases present <;> simp [countSignOuts, countNoUser] <;> omega
    | some u =>
      have := ih true
      simp [countSignOuts, countNoUser]
      exact this

/-- C8 fails as stated: the first notification of a signed-out visitor carries no user and
follows no notification with a user, yet the dashboard navigates to the login route; one
navigation, no transition from a present user. -/
theorem authStateChanged_navigates_without_transition :
    (authStateChangedAll Dashboard.mount [none]).navigated = ["/login"] ∧
      countSignOuts Dashboard.mount.user.isSome [none] = 0 := by
  decide

/-- C8, amended. The dashboard requests the login route once per notification that carries
no user, whether or not a user was present before: the navigations requested over a
sequence of notifications number the notifications without a user, which is at least the
number of transitions from a present user to none; and a notification with a user records
that user and requests no navigation. -/
theorem authStateChanged_navigates_per_missing_user (s : Dashboard)
    (ns : List (Option User)) :
    (authStateChangedAll s ns).navigated =
        s.navigated ++ List.replicate (countNoUser ns) "/login" ∧
      (authStateChangedAll s ns).navigated.length = s.navigated.length + countNoUser ns ∧
      (∀ present, countSignOuts present ns ≤ countNoUser ns) ∧
      (∀ u, authStateChanged s (some u) = { s with user := some u }) ∧
      (∀ u, (authStateChanged s (some u)).navigated = s.navigated) := by
  refine ⟨authStateChangedAll_navigated ns s, ?_, countSignOuts_le ns,
    fun _ => rfl, fun _ => rfl⟩
  rw [authStateChangedAll_navigated]
  simp

/-! ## Rendering -/

/-- The creation form is rendered exactly when the dashboard is not loading and the
filtered list is not empty. -/
theorem addTask_rendered_iff (s : Dashboard) :
    Element.AddTask ∈ render s ↔ s.loading = false ∧ s.filteredTasks ≠ [] := by
  unfold render
  cases hl : s.loading
  · by_cases he : s.filteredTasks = []
    · simp [he]
    · have hlen : ¬ s.filteredTasks.length = 0 := fun h => he (List.length_eq_zero.1 h)
      simp [he, hlen]
  · simp

/-- C9 fails on the code: after a successful load of an empty collection the loading flag
is false and the filtered list is empty; the view is the navigation bar followed by the
paragraph that asks the user to add a new task, and the creation form is not rendered. -/
theorem render_empty_list_has_no_creation_form :
    (fetchTasks Dashboard.mount (.ok [])).loading = false ∧
      (fetchTasks Dashboard.mount (.ok [])).filteredTasks = [] ∧
      render (fetchTasks Dashboard.mount (.ok [])) =
        [.h2 "Task Manager", .input "", .button "Logout",
          .p "No tasks match your search. Add a new task to get started!"] ∧
      Element.AddTask ∉ render (fetchTasks Dashboard.mount (.ok [])) := by
  decide

/-! ## The filtered list as a function of the full list and the search string -/

theorem searchEffect_ok (toLowerCase : String → String) (s t : Dashboard)
    (h : searchEffect toLowerCase s = .ok t) :
    searchResults toLowerCase t.tasks t.searchQuery = .ok t.filteredTasks := by
  unfold searchEffect at h
  cases hres : searchResults toLowerCase s.tasks s.searchQuery with
  | error e =>
    rw [hres] at h
    exact Except.noConfusion h
  | ok results =>
    rw [hres] at h
    injection h with h
    subst h
    exact hres

theorem run_keeps_search_inputs (s : Dashboard) (a : Action)
    (h : a.changesSearchDeps s = false) :
    (a.run s).tasks = s.tasks ∧ (a.run s).searchQuery = s.searchQuery ∧
      (a.run s).filteredTasks = s.filteredTasks := by
  cases a with
  | fetchTasks getDocs =>
    cases getDocs with
    | ok docs => simp [Action.changesSearchDeps] at h
    | error e => exact ⟨rfl, rfl, rfl⟩
  | setSearchQuery value =>
    have hv : value = s.searchQuery := by simpa [Action.changesSearchDeps] using h
    exact ⟨rfl, hv, rfl⟩
  | addTask newTask addDoc =>
    cases addDoc with
    | ok id => simp [Action.changesSearchDeps] at h
    | error e => exact ⟨rfl, rfl, rfl⟩
  | deleteTask taskId deleteDoc =>
    cases deleteDoc with
    | ok u => simp [Action.changesSearchDeps] at h
    | error e => exact ⟨rfl, rfl, rfl⟩
  | handleUpdateTask taskId updatedData updateDoc =>
    cases updateDoc with
    | ok u => simp [Action.changesSearchDeps] at h
    | error e => exact ⟨rfl, rfl, rfl⟩
  | setEditingTask task => exact ⟨rfl, rfl, rfl⟩
  | authStateChanged currentUser =>
    cases currentUser <;> exact ⟨rfl, rfl, rfl⟩

theorem settle_ok (toLowerCase : String → String) (s t : Dashboard) (a : Action)
    (hs : searchResults toLowerCase s.tasks s.searchQuery = .ok s.filteredTasks)
    (h : settle toLowerCase s a = .ok t) :
    searchResults toLowerCase t.tasks t.searchQuery = .ok t.filteredTasks := by
  unfold settle at h
  cases hc : a.changesSearchDeps s with
  | true =>
    rw [hc] at h
    exact searchEffect_ok toLowerCase _ t h
  | false =>
    rw [hc] at h
    injection h with h
    subst h
    obtain ⟨h1, h2, h3⟩ := run_keeps_search_inputs s a hc
    rw [h1, h2, h3]
    exact hs

theorem settled_invariant (toLowerCase : String → String) (s : Dashboard)
    (h : Settled toLowerCase s) :
    searchResults toLowerCase s.tasks s.searchQuery = .ok s.filteredTasks := by
  induction h with
  | mount => rfl
  | step s a t _ hstep ih => exact settle_ok toLowerCase s t a ih hstep

theorem titles_of_searchResults_ok (toLowerCase : String → String) (L R : List Obj)
    (q : String) (h : searchResults toLowerCase L q = .ok R) :
    ∀ t ∈ L, HasStringTitle t := by
  intro t ht
  by_contra hn
  obtain ⟨e, he⟩ := (searchResults_error_iff toLowerCase L q).2 ⟨t, ht, hn⟩
  rw [h] at he
  exact Except.noConfusion he

theorem settle_progress (toLowerCase : String → String) (s : Dashboard) (a : Action)
    (h : ∀ t ∈ (a.run s).tasks, HasStringTitle t) :
    ∃ t, settle toLowerCase s a = .ok t := by
  unfold settle
  cases hc : a.changesSearchDeps s with
  | true =>
    simp only [if_true, searchEffect,
      searchResults_of_titles toLowerCase (a.run s).tasks (a.run s).searchQuery h]
    exact ⟨_, rfl⟩
  | false => exact ⟨_, rfl⟩

theorem scenario_settled : Settled asciiLower scenario :=
  Settled.step Dashboard.mount (.fetchTasks (.ok scenarioDocs)) scenario Settled.mount (by decide)

theorem searching_settled : Settled asciiLower searching :=
  Settled.step scenario (.setSearchQuery "milk") searching scenario_settled (by decide)

/-- C6 fails as stated: with `milk` as the active search string, `addTask` of a task titled
`Call bank` writes the whole new list into the filtered list, so the state it reaches
shows a task whose title does not match the search; the filter of the new full list is the
single matching record. -/
theorem addTask_writes_unfiltered_list :
    Settled asciiLower searching ∧
      (addTask searching callBank (.ok "3")).1.searchQuery = "milk" ∧
      (addTask searching callBank (.ok "3")).1.filteredTasks =
        [buyMilk, payRent, callBankRecord] ∧
      searchResults asciiLower (addTask searching callBank (.ok "3")).1.tasks
        (addTask searching callBank (.ok "3")).1.searchQuery = .ok [buyMilk] ∧
      ¬ TitleContains asciiLower "milk" callBankRecord := by
  refine ⟨searching_settled, by decide, by decide, by decide, ?_⟩
  rintro ⟨title, htitle, hin⟩
  have ht : callBankRecord.get "title" = .str "Call bank" := by decide
  rw [ht] at htitle
  injection htitle with htitle
  subst htitle
  revert hin
  decide

/-- C6, amended. In every state reached once the search effect triggered by the last
change has run, the filtered list is the search result of the full list and the search
string: it holds exactly the tasks of the full list whose title matches. Every action whose
resulting list has string titles only leads to such a state again. (The handlers of load,
add, delete and update themselves write the whole new list into the filtered list; the
search effect that follows replaces it.) -/
theorem settled_filtered_is_search_result (toLowerCase : String → String) (s : Dashboard)
    (h : Settled toLowerCase s) :
    searchResults toLowerCase s.tasks s.searchQuery = .ok s.filteredTasks ∧
      (∀ t, t ∈ s.filteredTasks ↔ t ∈ s.tasks ∧ TitleContains toLowerCase s.searchQuery t) ∧
      ∀ a : Action, (∀ t ∈ (a.run s).tasks, HasStringTitle t) →
        ∃ t, settle toLowerCase s a = .ok t ∧ Settled toLowerCase t ∧
          searchResults toLowerCase t.tasks t.searchQuery = .ok t.filteredTasks := by
  have hinv := settled_invariant toLowerCase s h
  refine ⟨hinv, ?_, ?_⟩
  · have htitles := titles_of_searchResults_ok toLowerCase _ _ _ hinv
    have hres := searchResults_of_titles toLowerCase s.tasks s.searchQuery htitles
    rw [hinv] at hres
    injection hres with hres
    intro t
    rw [hres, List.mem_filter]
    constructor
    · rintro ⟨ht, hm⟩
      obtain ⟨title, htitle⟩ := htitles t ht
      simp only [htitle] at hm
      exact ⟨ht, (includes_iff toLowerCase s.searchQuery t title htitle).1 hm⟩
    · rintro ⟨ht, hm⟩
      obtain ⟨title, htitle⟩ := htitles t ht
      simp only [htitle]
      exact ⟨ht, (includes_iff toLowerCase s.searchQuery t title htitle).2 hm⟩
  · intro a ha
    obtain ⟨t, ht⟩ := settle_progress toLowerCase s a ha
    have hset := Settled.step s a t h ht
    exact ⟨t, ht, hset, settled_invariant toLowerCase t hset⟩

/-- With `milk` as the search string, the settled filtered list is the search result. -/
theorem settled_filtered_is_search_result_witness :
    Settled asciiLower searching ∧
      searchResults asciiLower searching.tasks searching.searchQuery =
        .ok searching.filteredTasks :=
  ⟨searching_settled, (settled_filtered_is_search_result asciiLower searching
    searching_settled).1⟩

/-- Once the search effect has run after the `addTask` of `Call bank`, the filtered list is
the single record matching `milk`. -/
theorem settle_addTask_while_searching :
    settle asciiLower searching (.addTask callBank (.ok "3")) =
      .ok { searching with tasks := [buyMilk, payRent, callBankRecord] } := by
  decide

end TaskManager
